import Mathlib

/-
Verification of the prometheus-decoder tool (src/main.go) against its
natural-language specification.

The embedding translates the Go source shallowly:
- Go structs become Lean structures with the source's field names.
- Go slices and maps that can be nil are modelled as `Option (List _)`
  where the nil/empty distinction is observable (JSON marshaling renders a
  nil slice as "null" and an allocated empty slice as "[]"); `none` is Go's
  nil, `some l` an allocated slice/map with contents `l`.
- int64 becomes `Int` (the two arithmetic operations performed, division and
  remainder by 1000, cannot overflow 64 bits, so no wraparound modelling is
  needed); float64 becomes `Float`; values are only copied, never computed on.
- Go's `/` and `%` on int64 truncate toward zero, which is `Int.tdiv` and
  `Int.tmod` (not Euclidean or floor division).
- The snappy decompressor (github.com/golang/snappy) and the protobuf
  unmarshaller (gogo/protobuf) are external libraries that main.go calls as
  opaque fallible functions; the pipeline embedding is therefore
  parameterized by two functions with those signatures, and theorems about
  the record loop hold for every choice of them.
- encoding/json behaviour that main.go relies on is modelled from the Go
  standard library's documented semantics: `Decoder.Decode` over a stream of
  concatenated JSON values, with a syntax error stored in the decoder and
  returned from every subsequent call (the decoder does not advance past a
  syntax error), and struct unmarshalling of a `[]byte` field from either a
  JSON array of numbers or a base64 string.
-/

namespace PromDecoder

/- The prompb namespace mirrors github.com/prometheus/prometheus/prompb,
the wire types deserialized from the decompressed payload. Only the fields
read by main.go are modelled. -/
namespace prompb

/-- Label is prompb.Label: one name/value pair of a series' label set. -/
structure Label where
  Name : String
  Value : String
deriving Repr, DecidableEq

/-- Sample is prompb.Sample: Value float64, Timestamp int64 (epoch ms). -/
structure Sample where
  Value : Float
  Timestamp : Int
deriving Repr

/-- TimeSeries is prompb.TimeSeries restricted to the fields main.go reads:
an ordered label list and an ordered sample list. -/
structure TimeSeries where
  Labels : List Label
  Samples : List Sample
deriving Repr

/-- WriteRequest is prompb.WriteRequest restricted to the field main.go
reads: the ordered series list. -/
structure WriteRequest where
  Timeseries : List TimeSeries
deriving Repr

end prompb

/-- PrometheusRecord is the input record struct of main.go: a single field
`Body []byte` carrying the compressed payload, with JSON tag "b". Bytes are
naturals below 256. -/
structure PrometheusRecord where
  Body : List Nat
deriving Repr, DecidableEq

/-- TimeSeries is main.go's output struct: a label map (JSON "labels"), a
timestamp slice (JSON "timestamps") and a value slice (JSON "values"). The
Go map is modelled as an association list with unique keys kept in insertion
order (lookup order is what Go map semantics guarantee; marshaling sorts the
keys, see marshalObj). Each field is `Option`-wrapped because a nil map or
slice marshals as "null" while an allocated empty one marshals as an empty
collection. -/
structure TimeSeries where
  Labels : Option (List (String × String))
  Timestamps : Option (List Int)
  Values : Option (List Float)
deriving Repr

/-- WriteRequestJSON is main.go's output document struct: the ordered series
list (JSON "timeseries"). The slice itself is always allocated with `make`
in the source, so it is modelled as a plain list. -/
structure WriteRequestJSON where
  Timeseries : List TimeSeries
deriving Repr

/-- Go map assignment `m[k] = v`: if the key is present its value is
replaced, otherwise the binding is appended. Keys stay unique. -/
def mapInsert (m : List (String × String)) (k v : String) :
    List (String × String) :=
  if m.any (fun p => p.1 = k) then
    m.map (fun p => if p.1 = k then (k, v) else p)
  else m ++ [(k, v)]

/-- Go map lookup `m[k]`: the value bound to `k`, if any. -/
def mapGet (m : List (String × String)) (k : String) : Option String :=
  (m.find? (fun p => p.1 = k)).map (fun p => p.2)

/-- The label-map construction loop of convertToReadableJSON
(main.go lines 58-61): start from an empty `make(map[string]string)` and
assign every label of the series in order. -/
def buildLabels (ls : List prompb.Label) : List (String × String) :=
  ls.foldl (fun m l => mapInsert m l.Name l.Value) []

/-- convertToReadableJSON (main.go lines 51-79): for each series of the
write request, in order, build the label map by the insertion loop and copy
the samples' timestamps and values into two index-aligned slices allocated
with `make`. Every constructed map and slice is allocated, hence `some`. -/
def convertToReadableJSON (wreq : prompb.WriteRequest) : WriteRequestJSON :=
  { Timeseries := wreq.Timeseries.map (fun ts =>
      { Labels := some (buildLabels ts.Labels)
        Timestamps := some (ts.Samples.map (fun s => s.Timestamp))
        Values := some (ts.Samples.map (fun s => s.Value)) }) }

/-- humanReadableTime (main.go lines 82-85) computes
`time.Unix(timestamp/1000, (timestamp%1000)*1000000)`. This embedding
returns the (seconds, nanoseconds) pair handed to time.Unix; Go's `/` and
`%` on int64 truncate toward zero, i.e. `Int.tdiv` / `Int.tmod`. The final
RFC3339Nano rendering in the local time zone is outside the embedding, but
time.Unix(sec, nsec) denotes the instant sec*1e9 + nsec nanoseconds since
the epoch (normalizing nsec into [0, 1e9)), captured by unixInstant. -/
def humanReadableTime (timestamp : Int) : Int × Int :=
  (Int.tdiv timestamp 1000, Int.tmod timestamp 1000 * 1000000)

/-- Modelled from the spec: the spec's formula for the annotation,
`seconds = floor(timestamp_ms / 1000)` and
`nanosecond_remainder = (timestamp_ms mod 1000) * 1,000,000`, i.e. floor
division `Int.fdiv` / `Int.fmod`. Kept separate from humanReadableTime so
the two decompositions can be compared. -/
def humanReadableTimeSpec (timestamp : Int) : Int × Int :=
  (Int.fdiv timestamp 1000, Int.fmod timestamp 1000 * 1000000)

/-- The instant denoted by a (seconds, nanoseconds) pair passed to
time.Unix, in nanoseconds since the epoch. time.Unix accepts nanoseconds
outside [0, 999999999] and normalizes, so two pairs denoting the same
instant render identically. -/
def unixInstant (p : Int × Int) : Int := p.1 * 1000000000 + p.2

/- Stream reader and main loop (main.go lines 87-110 and 150-204). -/

/-- One position of the input byte stream as seen by the streaming JSON
decoder: either one well-formed JSON record value (already unmarshalled
into a PrometheusRecord, see unmarshalRecord for that step), or a JSON
syntax error in the framing at this position. -/
inductive StreamItem where
  | record (r : PrometheusRecord)
  | malformed
deriving Repr, DecidableEq

/-- DecoderState models streamingJSONDecoder (main.go lines 88-91) wrapping
encoding/json's Decoder: the remaining stream, the decoder's stored error
(encoding/json keeps a syntax error in dec.err and returns it from every
later Decode call without advancing — `latched`), and the 1-based count of
records successfully parsed so far (main.go line 108). -/
structure DecoderState where
  stream : List StreamItem
  latched : Bool
  count : Nat
deriving Repr, DecidableEq

/-- Errors the next() operation can surface: end of input (io.EOF) or a
JSON syntax error from the underlying decoder. -/
inductive NextError where
  | eof
  | parseFailed
deriving Repr, DecidableEq

/-- next (main.go lines 103-110): ask the json.Decoder for the next value.
A latched syntax error is returned again without advancing (encoding/json
semantics); end of stream yields io.EOF; a malformed framing latches the
syntax error without consuming it; a well-formed record is consumed and
increments the counter before being returned. -/
def next (s : DecoderState) : Except NextError PrometheusRecord × DecoderState :=
  if s.latched then (Except.error NextError.parseFailed, s)
  else
    match s.stream with
    | [] => (Except.error NextError.eof, s)
    | StreamItem.malformed :: _ =>
        (Except.error NextError.parseFailed, { s with latched := true })
    | StreamItem.record r :: rest =>
        (Except.ok r, { stream := rest, latched := false, count := s.count + 1 })

/-- The two failure kinds of decodePrompbWriteReq: the snappy decode error
wrap and the protobuf unmarshal error wrap of main.go lines 36-45. -/
inductive DecodeError where
  | decompression
  | deserialization
deriving Repr, DecidableEq

/-- decodePrompbWriteReq (main.go lines 34-48): snappy-decompress the
record body, then protobuf-unmarshal the result. The two external decoders
are passed as opaque fallible functions, exactly how main.go uses them. -/
def decodePrompbWriteReq
    (snappyDecode : List Nat → Except String (List Nat))
    (protoUnmarshal : List Nat → Except String prompb.WriteRequest)
    (record : PrometheusRecord) : Except DecodeError prompb.WriteRequest :=
  match snappyDecode record.Body with
  | Except.error _ => Except.error DecodeError.decompression
  | Except.ok data =>
    match protoUnmarshal data with
    | Except.error _ => Except.error DecodeError.deserialization
    | Except.ok req => Except.ok req

/-- One diagnostic line printed by the main loop: "Error parsing JSON
object #seq" (main.go line 156) or "Error decoding JSON object #seq"
together with the wrapped failure kind (main.go line 163). `seq` is the
decoder counter at the time of printing. -/
inductive Diagnostic where
  | parseFailure (seq : Nat)
  | decodeFailure (seq : Nat) (kind : DecodeError)
deriving Repr, DecidableEq

/-- The state of one run of the main loop: the decoder, the documents
written so far (each preceded by its "# Object seq" marker, main.go line
200), and the diagnostic lines printed so far. -/
structure MainState where
  decoder : DecoderState
  documents : List (Nat × WriteRequestJSON)
  diagnostics : List Diagnostic
deriving Repr

/-- One iteration of the main loop (main.go lines 150-202). `none` means
the loop broke out on io.EOF; `some` carries the state at the next
iteration. A parse error prints one diagnostic and continues; a decode
error prints one diagnostic naming the record's sequence number and kind
and continues; a success appends one document. -/
def stepOnce
    (snappyDecode : List Nat → Except String (List Nat))
    (protoUnmarshal : List Nat → Except String prompb.WriteRequest)
    (s : MainState) : Option MainState :=
  match next s.decoder with
  | (Except.error NextError.eof, _) => none
  | (Except.error NextError.parseFailed, d) =>
      some { s with decoder := d,
                    diagnostics := s.diagnostics ++ [Diagnostic.parseFailure d.count] }
  | (Except.ok r, d) =>
      match decodePrompbWriteReq snappyDecode protoUnmarshal r with
      | Except.error e =>
          some { s with decoder := d,
                        diagnostics := s.diagnostics ++ [Diagnostic.decodeFailure d.count e] }
      | Except.ok wreq =>
          some { s with decoder := d,
                        documents := s.documents ++ [(d.count, convertToReadableJSON wreq)] }

/-- The main loop with explicit fuel: `some s` when the loop reached the
io.EOF break within `fuel` iterations leaving final state `s`, `none` when
it did not finish within `fuel` iterations. The Go loop has no other exit. -/
def runLoop
    (snappyDecode : List Nat → Except String (List Nat))
    (protoUnmarshal : List Nat → Except String prompb.WriteRequest) :
    Nat → MainState → Option MainState
  | 0, _ => none
  | fuel + 1, s =>
    match stepOnce snappyDecode protoUnmarshal s with
    | none => some s
    | some s2 => runLoop snappyDecode protoUnmarshal fuel s2

/-- The initial state of a run over a given input stream (main.go lines
147-149): fresh decoder, count 0, nothing written. -/
def initState (stream : List StreamItem) : MainState :=
  { decoder := { stream := stream, latched := false, count := 0 },
    documents := [], diagnostics := [] }

/-- The number printed by the final line "Successfully processed %d JSON
objects" (main.go line 204): the decoder counter. -/
def finalCount (s : MainState) : Nat := s.decoder.count

/- Unmarshalling one JSON value into a PrometheusRecord, modelled from
encoding/json's struct decoding as used by Decoder.Decode(&record). -/

/-- A parsed JSON value. Numbers are modelled as integers: the only numeric
positions main.go decodes into are the uint8 elements of the "b" byte
array, and encoding/json rejects non-integer literals there, so integer
numbers cover every accepted input. -/
inductive JsonValue where
  | null
  | bool (b : Bool)
  | num (n : Int)
  | str (s : String)
  | arr (elems : List JsonValue)
  | obj (fields : List (String × JsonValue))

/-- Value of one standard base64 alphabet character, if it is one. -/
def base64DecodeChar (c : Char) : Option Nat :=
  if 65 ≤ c.toNat ∧ c.toNat ≤ 90 then some (c.toNat - 65)
  else if 97 ≤ c.toNat ∧ c.toNat ≤ 122 then some (c.toNat - 97 + 26)
  else if 48 ≤ c.toNat ∧ c.toNat ≤ 57 then some (c.toNat - 48 + 52)
  else if c = '+' then some 62
  else if c = '/' then some 63
  else none

/-- Standard padded base64 decoding (base64.StdEncoding), used by
encoding/json when a []byte field is given a JSON string: groups of four
characters become three bytes, with one or two '=' padding characters
allowed in the final group. -/
def base64Decode : List Char → Option (List Nat)
  | [] => some []
  | c1 :: c2 :: c3 :: c4 :: rest =>
    match base64DecodeChar c1, base64DecodeChar c2 with
    | some v1, some v2 =>
      if c3 = '=' then
        if c4 = '=' ∧ rest = [] then some [v1 * 4 + v2 / 16] else none
      else
        match base64DecodeChar c3 with
        | some v3 =>
          if c4 = '=' then
            if rest = [] then some [v1 * 4 + v2 / 16, v2 % 16 * 16 + v3 / 4]
            else none
          else
            match base64DecodeChar c4, base64Decode rest with
            | some v4, some tail =>
                some ([v1 * 4 + v2 / 16, v2 % 16 * 16 + v3 / 4,
                       v3 % 4 * 64 + v4] ++ tail)
            | _, _ => none
        | none => none
    | _, _ => none
  | _ => none

/-- Decoding of one element of a JSON array into a Go uint8: the value must
be an integer in [0, 256), otherwise encoding/json reports an
UnmarshalTypeError. -/
def decodeByteArrayElem : JsonValue → Option Nat
  | JsonValue.num n => if 0 ≤ n ∧ n < 256 then some n.toNat else none
  | _ => none

/-- Elementwise decoding of a JSON array into a Go byte slice. -/
def decodeByteArray : List JsonValue → Option (List Nat)
  | [] => some []
  | v :: rest =>
    match decodeByteArrayElem v, decodeByteArray rest with
    | some b, some bs => some (b :: bs)
    | _, _ => none

/-- Decoding of the "b" field's JSON value into the Body byte slice,
following encoding/json's []byte handling: a JSON array is decoded
elementwise as numbers, a JSON string is base64-decoded, null leaves the
slice nil (nil and empty behave identically everywhere downstream, so both
are the empty list), and any other value is a type error. -/
def decodeBody : JsonValue → Option (List Nat)
  | JsonValue.arr elems => decodeByteArray elems
  | JsonValue.str s => base64Decode s.toList
  | JsonValue.null => some []
  | _ => none

/-- Unmarshalling one parsed JSON value into PrometheusRecord, modelling
`dec.Decode(&record)`: the value must be an object; fields named "b" (Go
also case-folds field names, not modelled) set Body, later duplicates
overwriting earlier ones; unknown fields are ignored; a field value of the
wrong shape is an unmarshalling error. -/
def unmarshalRecord (v : JsonValue) : Except String PrometheusRecord :=
  match v with
  | JsonValue.obj fields =>
    fields.foldlM
      (fun (acc : PrometheusRecord) (f : String × JsonValue) =>
        if f.1 = "b" then
          match decodeBody f.2 with
          | some bs => Except.ok { Body := bs }
          | none => Except.error "cannot unmarshal field b"
        else Except.ok acc)
      { Body := [] }
  | _ => Except.error "cannot unmarshal into Go struct PrometheusRecord"

/- Output marshalling, modelled from encoding/json's Marshal for the three
field types of TimeSeries. Only the nil/empty/nonempty shape of the output
is claimed about, but the definitions render full values. -/

/-- Lowercase hexadecimal digit. -/
def hexDigit (n : Nat) : Char :=
  if n < 10 then Char.ofNat (48 + n) else Char.ofNat (87 + n)

/-- Escaping of one character inside a JSON string, following
encoding/json's default encoder (which also HTML-escapes angle brackets
and ampersands). -/
def escapeChar (c : Char) : String :=
  if c = '"' then "\\\""
  else if c = '\\' then "\\\\"
  else if c = '\n' then "\\n"
  else if c = '\r' then "\\r"
  else if c = '\t' then "\\t"
  else if c = '<' then "\\u003c"
  else if c = '>' then "\\u003e"
  else if c = '&' then "\\u0026"
  else if c.toNat < 32 then
    String.mk ['\\', 'u', '0', '0', hexDigit (c.toNat / 16), hexDigit (c.toNat % 16)]
  else String.singleton c

/-- JSON string literal rendering. -/
def quoteString (s : String) : String :=
  "\"" ++ String.join (s.toList.map escapeChar) ++ "\""

/-- Marshalling of a Go slice: nil renders as null, an allocated slice as a
bracketed comma-separated element list. -/
def marshalArr {α : Type} (render : α → String) : Option (List α) → String
  | none => "null"
  | some l => "[" ++ String.intercalate "," (l.map render) ++ "]"

/-- Insertion of a key/value pair into a key-sorted list, keeping it
sorted. -/
def insertSorted (kv : String × String) :
    List (String × String) → List (String × String)
  | [] => [kv]
  | p :: rest =>
    if kv.1 ≤ p.1 then kv :: p :: rest else p :: insertSorted kv rest

/-- Insertion sort by key, used to render map keys in sorted order. -/
def sortByKey (l : List (String × String)) : List (String × String) :=
  l.foldr insertSorted []

/-- Marshalling of a Go map[string]string: nil renders as null, an
allocated map as a braced comma-separated key/value list sorted by key
(encoding/json sorts map keys). -/
def marshalObj : Option (List (String × String)) → String
  | none => "null"
  | some kvs =>
    "\x7b" ++
      String.intercalate ","
        ((sortByKey kvs).map
          (fun kv => quoteString kv.1 ++ ":" ++ quoteString kv.2)) ++
      "\x7d"

/- Helper lemmas. -/

/-- Replacing the value at an existing key makes find? return the new
binding. -/
theorem find?_replace_pos (m : List (String × String)) (k v : String)
    (h : m.any (fun p => p.1 = k) = true) :
    (m.map (fun p => if p.1 = k then (k, v) else p)).find?
        (fun p => p.1 = k) = some (k, v) := by
  induction m with
  | nil => simp at h
  | cons p m' ih =>
    by_cases hp : p.1 = k
    · rw [List.map_cons, if_pos hp, List.find?_cons_of_pos _ (by simp)]
    · rw [List.map_cons, if_neg hp, List.find?_cons_of_neg _ (by simp [hp])]
      simp only [List.any_cons, decide_eq_true_eq, hp, false_or] at h
      exact ih h

/-- Replacing the value at key k leaves find? for any other key unchanged. -/
theorem find?_replace_ne (m : List (String × String)) (k v k' : String)
    (hk : k' ≠ k) :
    (m.map (fun p => if p.1 = k then (k, v) else p)).find?
        (fun p => p.1 = k')
      = m.find? (fun p => p.1 = k') := by
  induction m with
  | nil => rfl
  | cons p m' ih =>
    have hkk : ¬ (k = k') := fun hcon => hk hcon.symm
    by_cases hp : p.1 = k
    · have hne : ¬ p.1 = k' := by rw [hp]; exact hkk
      rw [List.map_cons, if_pos hp,
          List.find?_cons_of_neg _ (by simp [hkk]),
          List.find?_cons_of_neg _ (by simp [hne])]
      exact ih
    · by_cases hp' : p.1 = k'
      · rw [List.map_cons, if_neg hp,
            List.find?_cons_of_pos _ (by simp [hp']),
            List.find?_cons_of_pos _ (by simp [hp'])]
      · rw [List.map_cons, if_neg hp,
            List.find?_cons_of_neg _ (by simp [hp']),
            List.find?_cons_of_neg _ (by simp [hp'])]
        exact ih

/-- Lookup after a Go map assignment: the assigned key maps to the new
value, every other key is unaffected. -/
theorem mapGet_mapInsert (m : List (String × String)) (k v k' : String) :
    mapGet (mapInsert m k v) k'
      = if k' = k then some v else mapGet m k' := by
  unfold mapInsert mapGet
  by_cases hany : m.any (fun p => p.1 = k) = true
  · simp only [hany, if_true]
    by_cases hk : k' = k
    · subst hk
      rw [find?_replace_pos m k' v hany]
      simp
    · rw [find?_replace_ne m k v k' hk]
      simp [hk]
  · rw [if_neg hany]
    rw [List.find?_append]
    by_cases hk : k' = k
    · subst hk
      have hnone : m.find? (fun p => decide (p.1 = k')) = none := by
        rw [List.find?_eq_none]
        intro p hp
        simp only [decide_eq_true_eq]
        intro hcon
        exact hany (List.any_eq_true.mpr ⟨p, hp, by simp [hcon]⟩)
      simp [hnone, List.find?]
    · have hne : ¬ ((k, v).1 = k') := fun hcon => hk hcon.symm
      simp [List.find?, hne, hk]

/-- Lookup in the label-map fold: the most recent binding for a key wins,
falling back to the initial map. -/
theorem mapGet_foldl_insert (ls : List prompb.Label)
    (m : List (String × String)) (k : String) :
    mapGet (ls.foldl (fun m l => mapInsert m l.Name l.Value) m) k
      = ((ls.reverse.find? (fun l => l.Name = k)).map
          (fun l => l.Value)).or (mapGet m k) := by
  induction ls generalizing m with
  | nil => simp
  | cons l ls' ih =>
    simp only [List.foldl_cons, List.reverse_cons, List.find?_append]
    rw [ih]
    cases hfind : ls'.reverse.find? (fun l => decide (l.Name = k)) with
    | some x => simp [hfind]
    | none =>
      simp only [hfind, Option.none_or, Option.or]
      rw [mapGet_mapInsert]
      by_cases hk : k = l.Name
      · simp [List.find?, hk]
      · have hne : ¬ (l.Name = k) := fun hcon => hk hcon.symm
        simp [List.find?, hk, hne]

/-- Series i of the converted document is the pointwise conversion of
series i of the write request. -/
theorem convert_get (wreq : prompb.WriteRequest) (i : Nat)
    (hi : i < wreq.Timeseries.length)
    (hi2 : i < (convertToReadableJSON wreq).Timeseries.length) :
    (convertToReadableJSON wreq).Timeseries.get ⟨i, hi2⟩
      = { Labels := some (buildLabels ((wreq.Timeseries.get ⟨i, hi⟩).Labels))
          Timestamps := some (((wreq.Timeseries.get ⟨i, hi⟩).Samples).map
            (fun s => s.Timestamp))
          Values := some (((wreq.Timeseries.get ⟨i, hi⟩).Samples).map
            (fun s => s.Value)) } := by
  simp [convertToReadableJSON, List.get_eq_getElem, List.getElem_map]

/-- A latched json.Decoder makes one loop iteration print one parse
diagnostic and change nothing else: the loop spins in place. -/
theorem stepOnce_latched
    (snappyDecode : List Nat → Except String (List Nat))
    (protoUnmarshal : List Nat → Except String prompb.WriteRequest)
    (s : MainState) (h : s.decoder.latched = true) :
    stepOnce snappyDecode protoUnmarshal s
      = some { s with diagnostics :=
          s.diagnostics ++ [Diagnostic.parseFailure s.decoder.count] } := by
  unfold stepOnce next
  simp [h]

/-- Once the json.Decoder has latched a syntax error, the loop never
terminates, for any amount of fuel. -/
theorem runLoop_latched
    (snappyDecode : List Nat → Except String (List Nat))
    (protoUnmarshal : List Nat → Except String prompb.WriteRequest)
    (fuel : Nat) :
    ∀ s : MainState, s.decoder.latched = true →
      runLoop snappyDecode protoUnmarshal fuel s = none := by
  induction fuel with
  | zero => intro s _; rfl
  | succ n ih =>
    intro s h
    simp only [runLoop, stepOnce_latched snappyDecode protoUnmarshal s h]
    exact ih _ h

/-- Decoding a JSON numeric array whose entries are bytes reproduces
exactly those bytes. -/
theorem decodeByteArray_map_num (bs : List Nat) (h : ∀ b ∈ bs, b < 256) :
    decodeByteArray (bs.map (fun (b : Nat) => JsonValue.num (b : Int)))
      = some bs := by
  induction bs with
  | nil => rfl
  | cons b rest ih =>
    have hb : b < 256 := h b (List.mem_cons_self _ _)
    have hrest := ih (fun x hx => h x (List.mem_cons_of_mem _ hx))
    simp [decodeByteArray, decodeByteArrayElem, hrest, hb]

/- Claim theorems. -/

/-- C2 counterexample: the claim computes the annotation with floor
division for every 64-bit timestamp, but at timestamp -1 the code's
truncating division yields the seconds component 0 and nanosecond
component -1000000, while the claimed floor decomposition yields -1 and
999000000: the components differ. -/
theorem c2_counterexample :
    humanReadableTime (-1) = (0, -1000000)
    ∧ humanReadableTimeSpec (-1) = (-1, 999000000)
    ∧ (humanReadableTime (-1)).1 ≠ (humanReadableTimeSpec (-1)).1 := by
  decide

/-- C2 amended: the annotation is computed with Go's truncating division
(seconds = timestamp_ms quot 1000 toward zero, nanoseconds = (timestamp_ms
rem 1000) * 1,000,000 with the dividend's sign), which agrees with the
claimed floor decomposition on every nonnegative timestamp and, for every
64-bit timestamp including negative ones, denotes the same instant
(seconds * 1e9 + nanoseconds = timestamp_ms * 1e6, which time.Unix
normalizes before rendering); in particular timestamp 1700000000123 yields
seconds 1700000000 and nanosecond remainder 123000000. -/
theorem c2_truncated_decomposition_same_instant :
    (∀ t : Int, unixInstant (humanReadableTime t) = t * 1000000
        ∧ unixInstant (humanReadableTimeSpec t) = t * 1000000)
    ∧ (∀ t : Int, 0 ≤ t → humanReadableTime t = humanReadableTimeSpec t)
    ∧ humanReadableTime 1700000000123 = (1700000000, 123000000) := by
  refine ⟨?_, ?_, by decide⟩
  · intro t
    have ht := Int.tdiv_add_tmod t 1000
    have hf := Int.fdiv_add_fmod t 1000
    constructor
    · simp only [unixInstant, humanReadableTime]
      linarith
    · simp only [unixInstant, humanReadableTimeSpec]
      linarith
  · intro t htpos
    unfold humanReadableTime humanReadableTimeSpec
    rw [Int.tdiv_eq_ediv htpos (by norm_num),
        Int.fdiv_eq_ediv t (by norm_num),
        Int.tmod_eq_emod htpos (by norm_num),
        Int.fmod_eq_emod t (by norm_num)]

/-- C2 witness: the amended theorem applied at the concrete timestamp
1700000000123 of the claim. -/
theorem c2_witness :
    humanReadableTime 1700000000123 = humanReadableTimeSpec 1700000000123 :=
  c2_truncated_decomposition_same_instant.2.1 1700000000123 (by decide)

/-- C5: reshape preserves series count and order, and for every series the
timestamps and values sequences are index-aligned copies of the series'
samples in original order: both have the samples' length, and entry j holds
sample j's timestamp (resp. value). -/
theorem c5_reshape_preserves_samples (wreq : prompb.WriteRequest) :
    ((convertToReadableJSON wreq).Timeseries.length = wreq.Timeseries.length)
    ∧ ((convertToReadableJSON wreq).Timeseries.map (fun t => t.Timestamps)
        = wreq.Timeseries.map
            (fun ts => some (ts.Samples.map (fun s => s.Timestamp))))
    ∧ ((convertToReadableJSON wreq).Timeseries.map (fun t => t.Values)
        = wreq.Timeseries.map
            (fun ts => some (ts.Samples.map (fun s => s.Value))))
    ∧ ∀ i (hi : i < wreq.Timeseries.length)
        (hi2 : i < (convertToReadableJSON wreq).Timeseries.length),
        ((((convertToReadableJSON wreq).Timeseries.get ⟨i, hi2⟩).Timestamps.getD []).length
            = (wreq.Timeseries.get ⟨i, hi⟩).Samples.length)
        ∧ ((((convertToReadableJSON wreq).Timeseries.get ⟨i, hi2⟩).Values.getD []).length
            = (wreq.Timeseries.get ⟨i, hi⟩).Samples.length)
        ∧ (∀ j (hj : j < (((convertToReadableJSON wreq).Timeseries.get ⟨i, hi2⟩).Timestamps.getD []).length)
            (hj2 : j < (wreq.Timeseries.get ⟨i, hi⟩).Samples.length),
            (((convertToReadableJSON wreq).Timeseries.get ⟨i, hi2⟩).Timestamps.getD []).get ⟨j, hj⟩
              = ((wreq.Timeseries.get ⟨i, hi⟩).Samples.get ⟨j, hj2⟩).Timestamp)
        ∧ (∀ j (hj : j < (((convertToReadableJSON wreq).Timeseries.get ⟨i, hi2⟩).Values.getD []).length)
            (hj2 : j < (wreq.Timeseries.get ⟨i, hi⟩).Samples.length),
            (((convertToReadableJSON wreq).Timeseries.get ⟨i, hi2⟩).Values.getD []).get ⟨j, hj⟩
              = ((wreq.Timeseries.get ⟨i, hi⟩).Samples.get ⟨j, hj2⟩).Value) := by
  refine ⟨by simp [convertToReadableJSON], by simp [convertToReadableJSON],
    by simp [convertToReadableJSON], ?_⟩
  intro i hi hi2
  rw [convert_get wreq i hi hi2]
  refine ⟨by simp, by simp, ?_, ?_⟩
  · intro j hj hj2
    simp [List.get_eq_getElem, List.getElem_map]
  · intro j hj hj2
    simp [List.get_eq_getElem, List.getElem_map]

/-- C5 witness: the theorem applied to a concrete two-series write request,
projected to series 0 and sample 1. -/
theorem c5_witness :
    (((convertToReadableJSON
        ⟨[⟨[⟨"job", "api"⟩], [⟨1.5, 10⟩, ⟨2.5, 20⟩]⟩,
          ⟨[], []⟩]⟩).Timeseries.get ⟨0, by decide⟩).Timestamps.getD []).get
        ⟨1, by decide⟩
      = (((prompb.WriteRequest.mk
          [⟨[⟨"job", "api"⟩], [⟨1.5, 10⟩, ⟨2.5, 20⟩]⟩,
            ⟨[], []⟩]).Timeseries.get ⟨0, by decide⟩).Samples.get
          ⟨1, by decide⟩).Timestamp :=
  ((c5_reshape_preserves_samples
      ⟨[⟨[⟨"job", "api"⟩], [⟨1.5, 10⟩, ⟨2.5, 20⟩]⟩, ⟨[], []⟩]⟩).2.2.2
    0 (by decide) (by decide)).2.2.1 1 (by decide) (by decide)

/-- C6: the label mapping built for every series is last-write-wins — the
lookup of the built mapping returns the value of the last occurrence of the
name in the series' ordered label list — and the label list
[(a,1),(b,2),(a,3)] yields the mapping a maps-to 3, b maps-to 2. -/
theorem c6_labels_last_write_wins :
    (∀ wreq : prompb.WriteRequest,
        (convertToReadableJSON wreq).Timeseries.map (fun t => t.Labels)
          = wreq.Timeseries.map (fun ts => some (buildLabels ts.Labels)))
    ∧ (∀ (ls : List prompb.Label) (k : String),
        mapGet (buildLabels ls) k
          = (ls.reverse.find? (fun l => l.Name = k)).map (fun l => l.Value))
    ∧ buildLabels [⟨"a", "1"⟩, ⟨"b", "2"⟩, ⟨"a", "3"⟩] = [("a", "3"), ("b", "2")]
    ∧ mapGet (buildLabels [⟨"a", "1"⟩, ⟨"b", "2"⟩, ⟨"a", "3"⟩]) "a" = some "3"
    ∧ mapGet (buildLabels [⟨"a", "1"⟩, ⟨"b", "2"⟩, ⟨"a", "3"⟩]) "b" = some "2" := by
  refine ⟨?_, ?_, by decide, by decide, by decide⟩
  · intro wreq
    simp [convertToReadableJSON]
  · intro ls k
    have h := mapGet_foldl_insert ls [] k
    simpa [buildLabels, mapGet] using h

/-- C8: the reshape step is total — every write request, including ones
with zero series, zero labels or zero samples, converts to a document with
one display series per input series and no error branch. -/
theorem c8_reshape_total :
    (∀ wreq : prompb.WriteRequest, ∃ doc : WriteRequestJSON,
        convertToReadableJSON wreq = doc
        ∧ doc.Timeseries.length = wreq.Timeseries.length)
    ∧ convertToReadableJSON ⟨[]⟩ = ⟨[]⟩
    ∧ convertToReadableJSON ⟨[⟨[], []⟩]⟩ = ⟨[⟨some [], some [], some []⟩]⟩ := by
  exact ⟨fun wreq => ⟨_, rfl, by simp [convertToReadableJSON]⟩, rfl, rfl⟩

/-- C1: run of the main loop over one record whose payload fails
decompression: the loop terminates having produced zero documents and one
diagnostic, yet the decoder counter printed by the final success line is 1,
not 0 — the printed count does not equal the number of records that
produced a Display Document, because the counter advances on JSON parse
success before decompression is attempted. -/
theorem c1_final_count_includes_failed_records
    (snappyDecode : List Nat → Except String (List Nat))
    (protoUnmarshal : List Nat → Except String prompb.WriteRequest)
    (r : PrometheusRecord) (msg : String)
    (h : snappyDecode r.Body = Except.error msg) :
    ∃ s : MainState,
      runLoop snappyDecode protoUnmarshal 2 (initState [StreamItem.record r])
        = some s
      ∧ finalCount s = 1
      ∧ s.documents = []
      ∧ s.diagnostics = [Diagnostic.decodeFailure 1 DecodeError.decompression]
      ∧ finalCount s ≠ s.documents.length := by
  refine ⟨{ decoder := { stream := [], latched := false, count := 1 },
            documents := [],
            diagnostics := [Diagnostic.decodeFailure 1 DecodeError.decompression] },
          ?_, rfl, rfl, rfl, by decide⟩
  simp [runLoop, stepOnce, next, initState, decodePrompbWriteReq, h]

/-- C1 witness: the theorem applied to the concrete record with empty
payload (an empty byte slice is not valid snappy data) and decoders that
reject it. -/
theorem c1_witness :
    ∃ s : MainState,
      runLoop (fun _ => Except.error "corrupt") (fun _ => Except.ok ⟨[]⟩) 2
          (initState [StreamItem.record ⟨[]⟩])
        = some s
      ∧ finalCount s = 1
      ∧ s.documents = []
      ∧ s.diagnostics = [Diagnostic.decodeFailure 1 DecodeError.decompression]
      ∧ finalCount s ≠ s.documents.length :=
  c1_final_count_includes_failed_records
    (fun _ => Except.error "corrupt") (fun _ => Except.ok ⟨[]⟩) ⟨[]⟩ "corrupt" rfl

/-- C3: a malformed framing error is never skipped: the json.Decoder
latches the syntax error and returns it from every later call, so for every
finite stream beginning with a malformed record and every fuel the loop
does not terminate, and each iteration in the latched state only prints one
more parse diagnostic while leaving the decoder (and hence the remaining
records) untouched — the subsequent well-formed records are never
processed, contradicting skip-and-continue with termination. -/
theorem c3_malformed_framing_loops_forever
    (snappyDecode : List Nat → Except String (List Nat))
    (protoUnmarshal : List Nat → Except String prompb.WriteRequest)
    (rest : List StreamItem) (fuel : Nat) :
    runLoop snappyDecode protoUnmarshal fuel
        (initState (StreamItem.malformed :: rest)) = none
    ∧ ∀ s : MainState, s.decoder.latched = true →
        stepOnce snappyDecode protoUnmarshal s
          = some { s with diagnostics :=
              s.diagnostics ++ [Diagnostic.parseFailure s.decoder.count] } := by
  constructor
  · cases fuel with
    | zero => rfl
    | succ n =>
      have h1 : stepOnce snappyDecode protoUnmarshal
          (initState (StreamItem.malformed :: rest))
          = some { decoder := { stream := StreamItem.malformed :: rest,
                                latched := true, count := 0 },
                   documents := [],
                   diagnostics := [Diagnostic.parseFailure 0] } := by
        simp [stepOnce, next, initState]
      simp only [runLoop, h1]
      exact runLoop_latched snappyDecode protoUnmarshal n _ rfl
  · exact fun s h => stepOnce_latched snappyDecode protoUnmarshal s h

/-- C3 witness: the stuck-iteration part of the theorem applied to a
concrete latched state. -/
theorem c3_witness :
    stepOnce (fun bs => Except.ok bs) (fun _ => Except.ok ⟨[]⟩)
        { decoder := { stream := [StreamItem.record ⟨[]⟩],
                       latched := true, count := 3 },
          documents := [], diagnostics := [] }
      = some { decoder := { stream := [StreamItem.record ⟨[]⟩],
                            latched := true, count := 3 },
               documents := [], diagnostics := [Diagnostic.parseFailure 3] } :=
  (c3_malformed_framing_loops_forever
      (fun bs => Except.ok bs) (fun _ => Except.ok ⟨[]⟩) [] 0).2
    { decoder := { stream := [StreamItem.record ⟨[]⟩],
                   latched := true, count := 3 },
      documents := [], diagnostics := [] } rfl

/-- C7: a record whose decode fails (decompression or deserialization
alike) is recovered locally: the run over a failing record followed by a
good one terminates with exactly one diagnostic line naming the failing
record's sequence number 1 and its failure kind, no document for it, and
the next record still processed into a document. -/
theorem c7_decode_failure_skip_and_continue
    (snappyDecode : List Nat → Except String (List Nat))
    (protoUnmarshal : List Nat → Except String prompb.WriteRequest)
    (r1 r2 : PrometheusRecord) (e : DecodeError) (w : prompb.WriteRequest)
    (h1 : decodePrompbWriteReq snappyDecode protoUnmarshal r1 = Except.error e)
    (h2 : decodePrompbWriteReq snappyDecode protoUnmarshal r2 = Except.ok w) :
    runLoop snappyDecode protoUnmarshal 3
        (initState [StreamItem.record r1, StreamItem.record r2])
      = some { decoder := { stream := [], latched := false, count := 2 },
               documents := [(2, convertToReadableJSON w)],
               diagnostics := [Diagnostic.decodeFailure 1 e] } := by
  simp [runLoop, stepOnce, next, initState, h1, h2]

/-- C7 witness: the theorem applied to concrete decoders for which record
[0] fails protobuf unmarshalling and record [1] decodes to the empty write
request. -/
theorem c7_witness :
    runLoop (fun bs => Except.ok bs)
        (fun bs => if bs = [0] then Except.error "bad" else Except.ok ⟨[]⟩) 3
        (initState [StreamItem.record ⟨[0]⟩, StreamItem.record ⟨[1]⟩])
      = some { decoder := { stream := [], latched := false, count := 2 },
               documents := [(2, convertToReadableJSON ⟨[]⟩)],
               diagnostics := [Diagnostic.decodeFailure 1
                 DecodeError.deserialization] } :=
  c7_decode_failure_skip_and_continue
    (fun bs => Except.ok bs)
    (fun bs => if bs = [0] then Except.error "bad" else Except.ok ⟨[]⟩)
    ⟨[0]⟩ ⟨[1]⟩ DecodeError.deserialization ⟨[]⟩ rfl rfl

/-- C9: on the empty input stream the reader immediately yields the
end-of-stream signal, the loop terminates in its first iteration, and the
final state carries zero documents and a printed success count of 0. -/
theorem c9_empty_stream
    (snappyDecode : List Nat → Except String (List Nat))
    (protoUnmarshal : List Nat → Except String prompb.WriteRequest) :
    next (initState []).decoder
      = (Except.error NextError.eof, (initState []).decoder)
    ∧ runLoop snappyDecode protoUnmarshal 1 (initState [])
        = some (initState [])
    ∧ finalCount (initState []) = 0
    ∧ (initState []).documents = [] := by
  exact ⟨rfl, rfl, rfl, rfl⟩

/-- C4: the record reader accepts a record whose single "b" field is a
numeric array of bytes (not a string) and reproduces exactly those payload
bytes in the record's Body. -/
theorem c4_numeric_array_payload (bs : List Nat) (h : ∀ b ∈ bs, b < 256) :
    unmarshalRecord (JsonValue.obj
        [("b", JsonValue.arr (bs.map (fun (b : Nat) => JsonValue.num (b : Int))))])
      = Except.ok { Body := bs } := by
  unfold unmarshalRecord
  simp [List.foldlM, decodeBody, decodeByteArray_map_num bs h]

/-- C4 witness: the theorem applied to the concrete payload [0, 104, 255]. -/
theorem c4_witness :
    unmarshalRecord (JsonValue.obj
        [("b", JsonValue.arr
          ([0, 104, 255].map (fun (b : Nat) => JsonValue.num (b : Int))))])
      = Except.ok { Body := [0, 104, 255] } :=
  c4_numeric_array_payload [0, 104, 255] (by decide)

/-- C10: a series with zero samples reshapes to a display series whose
timestamps and values are present, allocated empty slices serializing as
"[]" and never as "null"; a series with zero labels gets a present,
allocated empty label map serializing as an empty braced object and never
as "null". -/
theorem c10_empty_collections_present (wreq : prompb.WriteRequest) (i : Nat)
    (hi : i < wreq.Timeseries.length)
    (hi2 : i < (convertToReadableJSON wreq).Timeseries.length) :
    ((wreq.Timeseries.get ⟨i, hi⟩).Samples = [] →
        ((convertToReadableJSON wreq).Timeseries.get ⟨i, hi2⟩).Timestamps = some []
        ∧ ((convertToReadableJSON wreq).Timeseries.get ⟨i, hi2⟩).Values = some []
        ∧ marshalArr (fun n : Int => toString n)
            (((convertToReadableJSON wreq).Timeseries.get ⟨i, hi2⟩).Timestamps)
            = "[]"
        ∧ marshalArr (fun v : Float => toString v)
            (((convertToReadableJSON wreq).Timeseries.get ⟨i, hi2⟩).Values)
            = "[]"
        ∧ marshalArr (fun n : Int => toString n)
            (((convertToReadableJSON wreq).Timeseries.get ⟨i, hi2⟩).Timestamps)
            ≠ "null"
        ∧ marshalArr (fun v : Float => toString v)
            (((convertToReadableJSON wreq).Timeseries.get ⟨i, hi2⟩).Values)
            ≠ "null")
    ∧ ((wreq.Timeseries.get ⟨i, hi⟩).Labels = [] →
        ((convertToReadableJSON wreq).Timeseries.get ⟨i, hi2⟩).Labels = some []
        ∧ marshalObj
            (((convertToReadableJSON wreq).Timeseries.get ⟨i, hi2⟩).Labels)
            = "\x7b\x7d"
        ∧ marshalObj
            (((convertToReadableJSON wreq).Timeseries.get ⟨i, hi2⟩).Labels)
            ≠ "null") := by
  have hT : ((convertToReadableJSON wreq).Timeseries.get ⟨i, hi2⟩).Timestamps
      = some ((wreq.Timeseries.get ⟨i, hi⟩).Samples.map (fun s => s.Timestamp)) := by
    rw [convert_get wreq i hi hi2]
  have hV : ((convertToReadableJSON wreq).Timeseries.get ⟨i, hi2⟩).Values
      = some ((wreq.Timeseries.get ⟨i, hi⟩).Samples.map (fun s => s.Value)) := by
    rw [convert_get wreq i hi hi2]
  have hL : ((convertToReadableJSON wreq).Timeseries.get ⟨i, hi2⟩).Labels
      = some (buildLabels ((wreq.Timeseries.get ⟨i, hi⟩).Labels)) := by
    rw [convert_get wreq i hi hi2]
  constructor
  · intro hsamp
    rw [hT, hV, hsamp]
    exact ⟨rfl, rfl, rfl, rfl, by decide, by decide⟩
  · intro hlab
    rw [hL, hlab]
    exact ⟨rfl, by decide, by decide⟩

/-- C10 witness: the theorem applied to a one-series write request whose
series has no labels and no samples. -/
theorem c10_witness :
    ((convertToReadableJSON ⟨[⟨[], []⟩]⟩).Timeseries.get
        ⟨0, by decide⟩).Timestamps = some []
    ∧ marshalObj (((convertToReadableJSON ⟨[⟨[], []⟩]⟩).Timeseries.get
        ⟨0, by decide⟩).Labels) = "\x7b\x7d" := by
  have h := c10_empty_collections_present ⟨[⟨[], []⟩]⟩ 0 (by decide) (by decide)
  exact ⟨(h.1 rfl).1, (h.2 rfl).2.1⟩

end PromDecoder
